import Mathlib

/-!
Shallow embedding of the annotation coordinate-mapping and interaction engine of
PaperTrade (frontend `ChartDrawingManager` / `CustomChartDrawing` classes).

Conventions of the embedding:
* JavaScript numbers are modelled as exact rationals (`ℚ`); integer-valued
  times are modelled as `ℤ`.  `Math.floor` on an integer quotient becomes
  `Int.fdiv`; `Math.round` becomes `⌊q + 1/2⌋` (JS rounds half toward +∞).
* `null`/`undefined`-able values become `Option`s.
* The chart-library surface (lightweight-charts `timeScale()` etc.) is an
  external collaborator; it is modelled as a record of abstract resolution
  functions (`Chart`), exactly the interface the source calls.
* Euclidean distances (`Math.hypot`) are compared only against nonnegative
  pixel thresholds in the source, so the embedding carries the *squared*
  distance to the same closest point and compares against the squared
  threshold; this is equivalent and keeps everything inside `ℚ`.
-/

namespace PaperTrade

/-- The `Interval` union type `"1m" | "5m" | "15m" | "1h" | "4h" | "1d"`. -/
inductive Interval where
  | m1 | m5 | m15 | h1 | h4 | d1
deriving DecidableEq, Repr

/-- `intervalSecondsMap` lookup (`secondsForInterval`); the record is total so
the `?? 60` default is unreachable. -/
def secondsForInterval : Interval → Int
  | .m1 => 60
  | .m5 => 300
  | .m15 => 900
  | .h1 => 3600
  | .h4 => 14400
  | .d1 => 86400

theorem secondsForInterval_pos (iv : Interval) : 0 < secondsForInterval iv := by
  cases iv <;> decide

/-- `ChartPoint` / `DrawingPoint`: `{ time: number; price: number }` with
`time` in integer seconds. -/
structure ChartPoint where
  time : Int
  price : ℚ
deriving DecidableEq, Repr

/-- `mapTimeAcrossIntervals(timeSec, from, to, isEnd)` from
`ChartDrawingManager`: re-buckets a time from interval `fromIv` to `toIv`. -/
def mapTimeAcrossIntervals (timeSec : Int) (fromIv toIv : Interval) (isEnd : Bool) : Int :=
  if fromIv = toIv then timeSec
  else
    let fromSec := secondsForInterval fromIv
    let toSec := secondsForInterval toIv
    if fromSec < toSec then
      -- small -> big: snap to containing bigger bar open
      Int.fdiv timeSec toSec * toSec
    else if toSec < fromSec then
      -- big -> small
      let blockStart := Int.fdiv timeSec fromSec * fromSec
      if isEnd then
        -- end -> last smaller bar open
        blockStart + (fromSec - toSec)
      else
        -- start -> first smaller bar
        blockStart
    else timeSec

/-- The seconds map is injective, so distinct second counts force distinct
interval tags. -/
theorem secondsForInterval_injective {a b : Interval}
    (h : secondsForInterval a ≠ secondsForInterval b) : a ≠ b := by
  intro he
  exact h (he ▸ rfl)

/-- C1: remapping to a finer interval sends the start handle to the coarse
bucket start `⌊t / fromSec⌋ * fromSec` and the end handle to that start plus
`fromSec - toSec`; with `fromSeconds = 3600`, `toSeconds = 60`, a start handle
at bucket start `3600` maps to `3600` and an end handle in the same bucket
maps to `7140`. -/
theorem mapTime_finer (t : Int) (fromIv toIv : Interval)
    (h : secondsForInterval toIv < secondsForInterval fromIv) :
    mapTimeAcrossIntervals t fromIv toIv false
        = Int.fdiv t (secondsForInterval fromIv) * secondsForInterval fromIv
      ∧ mapTimeAcrossIntervals t fromIv toIv true
        = Int.fdiv t (secondsForInterval fromIv) * secondsForInterval fromIv
          + (secondsForInterval fromIv - secondsForInterval toIv)
      ∧ mapTimeAcrossIntervals 3600 .h1 .m1 false = 3600
      ∧ mapTimeAcrossIntervals 5000 .h1 .m1 true = 7140 := by
  have hne : fromIv ≠ toIv := secondsForInterval_injective (ne_of_gt h)
  have hnlt : ¬ secondsForInterval fromIv < secondsForInterval toIv := not_lt.mpr h.le
  refine ⟨?_, ?_, by decide, by decide⟩ <;>
    simp [mapTimeAcrossIntervals, hne, hnlt, h]

theorem mapTime_finer_witness :
    secondsForInterval .m1 < secondsForInterval .h1
      ∧ mapTimeAcrossIntervals 3600 .h1 .m1 false
          = Int.fdiv 3600 (secondsForInterval .h1) * secondsForInterval .h1 :=
  ⟨by decide, (mapTime_finer 3600 .h1 .m1 (by decide)).1⟩

/-- C2: remapping to a coarser interval sends both handles to
`⌊t / toSec⌋ * toSec`; remapping 1m→1h maps a point at time 3723 to 3600 for
both handles. -/
theorem mapTime_coarser (t : Int) (fromIv toIv : Interval) (isEnd : Bool)
    (h : secondsForInterval fromIv < secondsForInterval toIv) :
    mapTimeAcrossIntervals t fromIv toIv isEnd
        = Int.fdiv t (secondsForInterval toIv) * secondsForInterval toIv
      ∧ mapTimeAcrossIntervals 3723 .m1 .h1 false = 3600
      ∧ mapTimeAcrossIntervals 3723 .m1 .h1 true = 3600 := by
  have hne : fromIv ≠ toIv := secondsForInterval_injective (ne_of_lt h)
  refine ⟨?_, by decide, by decide⟩
  simp [mapTimeAcrossIntervals, hne, h]

theorem mapTime_coarser_witness :
    secondsForInterval .m1 < secondsForInterval .h1
      ∧ mapTimeAcrossIntervals 3723 .m1 .h1 false
          = Int.fdiv 3723 (secondsForInterval .h1) * secondsForInterval .h1 :=
  ⟨by decide, (mapTime_coarser 3723 .m1 .h1 false (by decide)).1⟩

/-- The tool union `"line" | "fib" | "rectangle" | "none"`. -/
inductive Tool where
  | line | fib | rectangle | none
deriving DecidableEq, Repr

/-- The `basePoints` / `baseInterval` entries of the untyped
`properties?: Record<string, unknown>` bag (these are the only keys the
manager reads or writes). -/
structure DrawProps where
  basePoints : Option (List ChartPoint)
  baseInterval : Option Interval
deriving DecidableEq, Repr

/-- `DrawingData` from `services/drawingApi` (the fields the manager uses;
`x`/`y` point fields are never read by this core). -/
structure DrawingData where
  id : Option String
  symbol : String
  interval : Interval
  tool : Tool
  points : List ChartPoint
  color : String
  lineWidth : Int
  properties : Option DrawProps
deriving DecidableEq, Repr

/-- `(d as any).properties?.basePoints ?? d.points` in
`transformDrawingForCurrentInterval`. -/
def resolvedBasePoints (d : DrawingData) : List ChartPoint :=
  match d.properties with
  | some pr => pr.basePoints.getD d.points
  | none => d.points

/-- `(d as any).properties?.baseInterval ?? (d.interval as Interval) ?? toIv`
(`d.interval` is a required field, so the final `?? toIv` is unreachable). -/
def resolvedBaseInterval (d : DrawingData) : Interval :=
  match d.properties with
  | some pr => pr.baseInterval.getD d.interval
  | none => d.interval

/-- `transformDrawingForCurrentInterval(d)` with the manager's current
interval `toIv`: recompute `points` from the retained base, carrying
`basePoints`/`baseInterval` forward.  The source guard
`typeof p1.time !== 'number'` is always satisfied here because the model's
points are well-typed; the remaining guard is the presence of two base
points. -/
def transformDrawingForCurrentInterval (toIv : Interval) (d : DrawingData) : DrawingData :=
  let basePoints := resolvedBasePoints d
  let baseInterval := resolvedBaseInterval d
  match basePoints[0]?, basePoints[1]? with
  | some p1, some p2 =>
      { d with
        interval := toIv
        points := [⟨mapTimeAcrossIntervals p1.time baseInterval toIv false, p1.price⟩,
                   ⟨mapTimeAcrossIntervals p2.time baseInterval toIv true, p2.price⟩]
        properties := some ⟨some basePoints, some baseInterval⟩ }
  | _, _ => { d with interval := toIv }

/-- A remap never changes the resolved base points. -/
theorem resolvedBasePoints_transform (toIv : Interval) (d : DrawingData) :
    resolvedBasePoints (transformDrawingForCurrentInterval toIv d) = resolvedBasePoints d := by
  unfold transformDrawingForCurrentInterval
  rcases h0 : (resolvedBasePoints d)[0]? with _ | p1 <;>
    rcases h1 : (resolvedBasePoints d)[1]? with _ | p2 <;>
      simp only [h0, h1] <;>
        cases hp : d.properties <;> simp [resolvedBasePoints, hp]

/-- When the annotation carries a stored `baseInterval`, a remap resolves the
same base interval afterwards.  (Without a stored `baseInterval` and with
fewer than two base points this can fail, because the degenerate branch
rewrites `interval` without recording the base.) -/
theorem resolvedBaseInterval_transform (toIv : Interval) (d : DrawingData)
    (pr : DrawProps) (aIv : Interval)
    (hp : d.properties = some pr) (hi : pr.baseInterval = some aIv) :
    resolvedBaseInterval (transformDrawingForCurrentInterval toIv d) = aIv := by
  unfold transformDrawingForCurrentInterval
  rcases h0 : (resolvedBasePoints d)[0]? with _ | p1 <;>
    rcases h1 : (resolvedBasePoints d)[1]? with _ | p2 <;>
      simp [resolvedBaseInterval, hp, hi, h0, h1]

/-- In the degenerate branch (fewer than two base points) a remap keeps
`points` unchanged. -/
theorem transform_points_degenerate (toIv : Interval) (d : DrawingData)
    (h : (resolvedBasePoints d)[0]? = Option.none
        ∨ (resolvedBasePoints d)[1]? = Option.none) :
    (transformDrawingForCurrentInterval toIv d).points = d.points := by
  unfold transformDrawingForCurrentInterval
  rcases h0 : (resolvedBasePoints d)[0]? with _ | p1
  · simp [h0]
  · rcases h1 : (resolvedBasePoints d)[1]? with _ | p2
    · simp [h0, h1]
    · rcases h with h | h
      · rw [h0] at h; exact Option.noConfusion h
      · rw [h1] at h; exact Option.noConfusion h

/-- In the live branch (two base points) a remap recomputes `points` from the
resolved base alone. -/
theorem transform_points_nondegenerate (toIv : Interval) (d : DrawingData)
    (p1 p2 : ChartPoint)
    (h0 : (resolvedBasePoints d)[0]? = some p1)
    (h1 : (resolvedBasePoints d)[1]? = some p2) :
    (transformDrawingForCurrentInterval toIv d).points
      = [⟨mapTimeAcrossIntervals p1.time (resolvedBaseInterval d) toIv false, p1.price⟩,
         ⟨mapTimeAcrossIntervals p2.time (resolvedBaseInterval d) toIv true, p2.price⟩] := by
  unfold transformDrawingForCurrentInterval
  simp only [h0, h1]

/-- When the annotation carries a stored `baseInterval`, the remapped
annotation's properties still record it. -/
theorem transform_properties_baseInterval (toIv : Interval) (d : DrawingData)
    (pr : DrawProps) (aIv : Interval)
    (hp : d.properties = some pr) (hi : pr.baseInterval = some aIv) :
    ∃ pr', (transformDrawingForCurrentInterval toIv d).properties = some pr'
      ∧ pr'.baseInterval = some aIv := by
  unfold transformDrawingForCurrentInterval
  rcases h0 : (resolvedBasePoints d)[0]? with _ | p1 <;>
    rcases h1 : (resolvedBasePoints d)[1]? with _ | p2 <;>
      simp only [h0, h1]
  · exact ⟨pr, by simp [hp], hi⟩
  · exact ⟨pr, by simp [hp], hi⟩
  · exact ⟨pr, by simp [hp], hi⟩
  · exact ⟨⟨some (resolvedBasePoints d), some (resolvedBaseInterval d)⟩, rfl,
      by simp [resolvedBaseInterval, hp, hi]⟩

/-- C3: with stored `basePoints` and `baseInterval = A`, remapping A→B→C gives
the same `points` as remapping A→C directly, and the stored base survives
every remap unchanged. -/
theorem transform_path_independent (d : DrawingData) (pr : DrawProps)
    (bps : List ChartPoint) (aIv bIv cIv : Interval)
    (hp : d.properties = some pr)
    (hb : pr.basePoints = some bps)
    (hi : pr.baseInterval = some aIv) :
    (transformDrawingForCurrentInterval cIv
        (transformDrawingForCurrentInterval bIv d)).points
      = (transformDrawingForCurrentInterval cIv d).points
    ∧ resolvedBasePoints (transformDrawingForCurrentInterval bIv d) = bps
    ∧ resolvedBaseInterval (transformDrawingForCurrentInterval bIv d) = aIv
    ∧ resolvedBasePoints (transformDrawingForCurrentInterval cIv
        (transformDrawingForCurrentInterval bIv d)) = bps
    ∧ resolvedBaseInterval (transformDrawingForCurrentInterval cIv
        (transformDrawingForCurrentInterval bIv d)) = aIv := by
  have hbase : resolvedBasePoints d = bps := by
    simp [resolvedBasePoints, hp, hb]
  have hbiv : resolvedBaseInterval d = aIv := by
    simp [resolvedBaseInterval, hp, hi]
  obtain ⟨pr', hp', hi'⟩ := transform_properties_baseInterval bIv d pr aIv hp hi
  refine ⟨?_, by rw [resolvedBasePoints_transform, hbase],
      resolvedBaseInterval_transform bIv d pr aIv hp hi,
      by rw [resolvedBasePoints_transform, resolvedBasePoints_transform, hbase],
      resolvedBaseInterval_transform cIv _ pr' aIv hp' hi'⟩
  rcases h0 : (resolvedBasePoints d)[0]? with _ | p1
  · have h0' : (resolvedBasePoints (transformDrawingForCurrentInterval bIv d))[0]?
        = Option.none := by rw [resolvedBasePoints_transform]; exact h0
    rw [transform_points_degenerate cIv _ (Or.inl h0'),
        transform_points_degenerate bIv d (Or.inl h0),
        transform_points_degenerate cIv d (Or.inl h0)]
  · rcases h1 : (resolvedBasePoints d)[1]? with _ | p2
    · have h1' : (resolvedBasePoints (transformDrawingForCurrentInterval bIv d))[1]?
          = Option.none := by rw [resolvedBasePoints_transform]; exact h1
      rw [transform_points_degenerate cIv _ (Or.inr h1'),
          transform_points_degenerate bIv d (Or.inr h1),
          transform_points_degenerate cIv d (Or.inr h1)]
    · have h0' : (resolvedBasePoints (transformDrawingForCurrentInterval bIv d))[0]?
          = some p1 := by rw [resolvedBasePoints_transform]; exact h0
      have h1' : (resolvedBasePoints (transformDrawingForCurrentInterval bIv d))[1]?
          = some p2 := by rw [resolvedBasePoints_transform]; exact h1
      rw [transform_points_nondegenerate cIv _ p1 p2 h0' h1',
          transform_points_nondegenerate cIv d p1 p2 h0 h1,
          resolvedBaseInterval_transform bIv d pr aIv hp hi, hbiv]

/-- Concrete instantiation of C3 (with a base stored at 1h, remapped via 1m
then to 4h versus directly to 4h). -/
theorem transform_path_independent_witness :
    (transformDrawingForCurrentInterval .h4
        (transformDrawingForCurrentInterval .m1
          ⟨some "a", "BTC", .h1, .line, [⟨3600, 5⟩, ⟨7200, 6⟩], "#22aa6a", 2,
            some ⟨some [⟨3600, 5⟩, ⟨7200, 6⟩], some .h1⟩⟩)).points
      = (transformDrawingForCurrentInterval .h4
          ⟨some "a", "BTC", .h1, .line, [⟨3600, 5⟩, ⟨7200, 6⟩], "#22aa6a", 2,
            some ⟨some [⟨3600, 5⟩, ⟨7200, 6⟩], some .h1⟩⟩).points :=
  (transform_path_independent _ _ [⟨3600, 5⟩, ⟨7200, 6⟩] .h1 .m1 .h4 rfl rfl rfl).1

/-- C4 counterexample: an annotation whose displayed `points` differ from its
stored `basePoints` (as after a remap away from the base interval) is *not*
returned unchanged when remapped back with `toInterval = fromInterval =
baseInterval`: the code recomputes `points` from `basePoints`. -/
theorem transform_identity_counterexample :
    (transformDrawingForCurrentInterval .h1
        ⟨some "a", "BTC", .m1, .line, [⟨60, 1⟩, ⟨120, 2⟩], "#22aa6a", 2,
          some ⟨some [⟨0, 1⟩, ⟨3600, 2⟩], some .h1⟩⟩).points
      ≠ [ChartPoint.mk 60 1, ChartPoint.mk 120 2] := by
  decide

/-- C4 amended: remapping with `toInterval` equal to the stored base interval
returns the stored `basePoints` verbatim (so output equals input exactly when
the annotation's displayed points equal its stored base, as for a freshly
created annotation). -/
theorem transform_identity_amended (d : DrawingData) (p1 p2 : ChartPoint)
    (toIv : Interval)
    (hb : resolvedBasePoints d = [p1, p2])
    (hi : resolvedBaseInterval d = toIv) :
    (transformDrawingForCurrentInterval toIv d).points = [p1, p2] := by
  unfold transformDrawingForCurrentInterval
  rw [hb, hi]
  simp [mapTimeAcrossIntervals]

/-- Concrete instantiation of C4's amended statement: a freshly created
annotation (displayed points equal to the stored base) is returned with its
points unchanged. -/
theorem transform_identity_amended_witness :
    (transformDrawingForCurrentInterval .h1
        ⟨some "a", "BTC", .h1, .line, [⟨3600, 5⟩, ⟨7200, 6⟩], "#22aa6a", 2,
          some ⟨some [⟨3600, 5⟩, ⟨7200, 6⟩], some .h1⟩⟩).points
      = [ChartPoint.mk 3600 5, ChartPoint.mk 7200 6] :=
  transform_identity_amended _ _ _ _ (by decide) (by decide)

/-- `Candle` from `types.ts` (`open` is a Lean keyword, hence the guillemets). -/
structure Candle where
  time : Int
  «open» : ℚ
  high : ℚ
  low : ℚ
  close : ℚ
  volume : ℚ
deriving DecidableEq, Repr

/-- The lightweight-charts surface the manager consults
(`chart.timeScale()` / `series`), plus the manager's injected environment
(`interval`, `candles`, canvas width).  Each resolution call can fail
(`null`/`undefined`), hence `Option`. -/
structure Chart where
  timeToCoordinate : Int → Option ℚ
  coordinateToTime : ℚ → Option ℚ
  priceToCoordinate : ℚ → Option ℚ
  coordinateToPrice : ℚ → Option ℚ
  logicalRange : Option (ℚ × ℚ)
  logicalToCoordinate : ℚ → Option ℚ
  candles : List Candle
  canvasWidth : ℚ
  interval : Interval

/-- `Math.floor` (computable `Rat.floor`, which agrees with `⌊·⌋` by
`Rat.floor_def`). -/
def floorJS (q : ℚ) : Int := q.floor

/-- `Math.round` in JS: half rounds toward +∞. -/
def roundJS (q : ℚ) : Int := floorJS (q + 1/2)

theorem floorJS_eq_floor (q : ℚ) : floorJS q = ⌊q⌋ := by
  rw [floorJS, Rat.floor_def', Rat.floor_def]

/-- The manager's `intervalSeconds` getter. -/
def intervalSeconds (c : Chart) : Int := secondsForInterval c.interval

/-- The raw one-bar pixel width probed inside `getBarSpacing`:
`|logicalToCoordinate(range.to) - logicalToCoordinate(range.to - 1)|`, or
`none` if the range or either coordinate is unavailable (the `try`/optional
chains in the source). -/
def barSpacingRaw (c : Chart) : Option ℚ :=
  match c.logicalRange with
  | some r =>
    match c.logicalToCoordinate r.2, c.logicalToCoordinate (r.2 - 1) with
    | some c2, some c1 => some |c2 - c1|
    | _, _ => none
  | none => none

/-- `getBarSpacing()`: the probed spacing when it exceeds `0.5`, else the
safe default `6`. -/
def getBarSpacing (c : Chart) : ℚ :=
  match barSpacingRaw c with
  | some spacing => if 1/2 < spacing then spacing else 6
  | none => 6

/-- `getLastCandleTime()`. -/
def getLastCandleTime (c : Chart) : Option Int :=
  c.candles.getLast?.map (·.time)

/-- The pixel-by-pixel leftward scan inside `findReferenceTimeLeft`: probe
`coordinateToTime` at integer columns `x, x-1, …, 0`. -/
def scanLeftTime (c : Chart) : Nat → Option (ℚ × Int)
  | 0 =>
    match c.coordinateToTime 0 with
    | some t => some (0, roundJS t)
    | none => none
  | n + 1 =>
    match c.coordinateToTime ((n : ℚ) + 1) with
    | some t => some ((n : ℚ) + 1, roundJS t)
    | none => scanLeftTime c n

/-- `findReferenceTimeLeft(xStart)`: scan columns left of
`min(⌊xStart⌋, ⌊width⌋ - 1)` for a resolvable time; failing that, use the
last candle's time if its own coordinate resolves. -/
def findReferenceTimeLeft (c : Chart) (xStart : ℚ) : Option (ℚ × Int) :=
  let b : Int := min (floorJS xStart) (max 0 (floorJS c.canvasWidth - 1))
  let scanned : Option (ℚ × Int) :=
    if 0 ≤ b then scanLeftTime c b.toNat else none
  match scanned with
  | some r => some r
  | none =>
    match getLastCandleTime c with
    | some lastTime =>
      match c.timeToCoordinate lastTime with
      | some xr => some (xr, lastTime)
      | none => none
    | none => none

/-- `timeToXWithFallback(timeSec)`: direct resolution, then last-candle
reference plus bar-spacing extrapolation, then leftward scan. -/
def timeToXWithFallback (c : Chart) (timeSec : Int) : Option ℚ :=
  match c.timeToCoordinate timeSec with
  | some x => some x
  | none =>
    let viaLast : Option ℚ :=
      match getLastCandleTime c with
      | some lastTime =>
        match c.timeToCoordinate lastTime with
        | some xr =>
          some (xr + ((timeSec - lastTime : Int) : ℚ) / (intervalSeconds c : ℚ) * getBarSpacing c)
        | none => none
      | none => none
    match viaLast with
    | some x => some x
    | none =>
      match findReferenceTimeLeft c (c.canvasWidth - 1) with
      | some (xRef, tRef) =>
        some (xRef + ((timeSec - tRef : Int) : ℚ) / (intervalSeconds c : ℚ) * getBarSpacing c)
      | none => none

/-- `chartToScreenPoint(chartPoint)`: fails when either the extrapolated x or
the price's y is unavailable. -/
def chartToScreenPoint (c : Chart) (p : ChartPoint) : Option (ℚ × ℚ) :=
  match timeToXWithFallback c p.time, c.priceToCoordinate p.price with
  | some x, some y => some (x, y)
  | _, _ => none

/-- `screenToChartPoint(screenX, screenY)`: price must resolve; time resolves
directly (rounded) or is extrapolated from the last candle, else from the
leftward scan. -/
def screenToChartPoint (c : Chart) (screenX screenY : ℚ) : Option ChartPoint :=
  match c.coordinateToPrice screenY with
  | none => none
  | some price =>
    match c.coordinateToTime screenX with
    | some t => some ⟨roundJS t, price⟩
    | none =>
      let viaLast : Option ChartPoint :=
        match getLastCandleTime c with
        | some lastTime =>
          match c.timeToCoordinate lastTime with
          | some xRef =>
            some ⟨lastTime + roundJS ((screenX - xRef) / getBarSpacing c * (intervalSeconds c : ℚ)),
                  price⟩
          | none => none
        | none => none
      match viaLast with
      | some p => some p
      | none =>
        match findReferenceTimeLeft c screenX with
        | some (xRef, tRef) =>
          some ⟨tRef + roundJS ((screenX - xRef) / getBarSpacing c * (intervalSeconds c : ℚ)),
                price⟩
        | none => none

/-- C9: the bar spacing used by extrapolation arithmetic is strictly
positive for every adapter response; whenever the probed spacing is
unavailable or not greater than `0.5`, the safe default `6` is returned, so
divisions by bar spacing are guarded. -/
theorem getBarSpacing_safe (c : Chart) :
    0 < getBarSpacing c
      ∧ ((barSpacingRaw c = Option.none
            ∨ ∃ s, barSpacingRaw c = some s ∧ s ≤ 1/2) → getBarSpacing c = 6) := by
  unfold getBarSpacing
  rcases hr : barSpacingRaw c with _ | s
  · exact ⟨by norm_num, fun _ => rfl⟩
  · refine ⟨?_, ?_⟩
    · show 0 < if 1/2 < s then s else (6 : ℚ)
      by_cases hs : 1/2 < s
      · rw [if_pos hs]; linarith
      · rw [if_neg hs]; norm_num
    · rintro (he | ⟨s', hs', hle⟩)
      · exact Option.noConfusion he
      · show (if 1/2 < s then s else (6 : ℚ)) = 6
        injection hs' with h
        subst h
        rw [if_neg (not_lt.mpr hle)]

/-- A chart whose adapter reports no logical range at all, so the probed
spacing is unavailable. -/
def chartNoRange : Chart :=
  ⟨fun _ => Option.none, fun _ => Option.none, fun _ => Option.none,
    fun _ => Option.none, Option.none, fun _ => Option.none, [], 0, .m1⟩

theorem getBarSpacing_safe_witness :
    (barSpacingRaw chartNoRange = Option.none
      ∨ ∃ s, barSpacingRaw chartNoRange = some s ∧ s ≤ 1/2)
    ∧ getBarSpacing chartNoRange = 6 :=
  ⟨Or.inl rfl, (getBarSpacing_safe chartNoRange).2 (Or.inl rfl)⟩

/-- C5: for a point `N > 0` bar-durations beyond the last candle, when direct
time resolution fails but the last candle's column `referenceX` resolves,
the extrapolated x is exactly `referenceX + N * barSpacing` (and `toScreen`
returns it paired with the resolved y). -/
theorem timeToX_extrapolation_exact (c : Chart) (T : Int) (N : ℕ) (xr yv p : ℚ)
    (_hN : 0 < N)
    (hlast : getLastCandleTime c = some T)
    (hfail : c.timeToCoordinate (T + N * intervalSeconds c) = Option.none)
    (href : c.timeToCoordinate T = some xr)
    (hy : c.priceToCoordinate p = some yv) :
    timeToXWithFallback c (T + N * intervalSeconds c)
        = some (xr + N * getBarSpacing c)
      ∧ chartToScreenPoint c ⟨T + N * intervalSeconds c, p⟩
        = some (xr + N * getBarSpacing c, yv) := by
  have hiv : ((intervalSeconds c : ℚ)) ≠ 0 := by
    have := secondsForInterval_pos c.interval
    simp only [intervalSeconds]
    exact_mod_cast this.ne'
  have hx : timeToXWithFallback c (T + N * intervalSeconds c)
      = some (xr + N * getBarSpacing c) := by
    unfold timeToXWithFallback
    have hdiff : ((T + N * intervalSeconds c - T : Int) : ℚ)
        = (N : ℚ) * (intervalSeconds c : ℚ) := by push_cast; ring
    simp only [hfail, hlast, href, hdiff, mul_div_assoc, div_self hiv, mul_one]
  exact ⟨hx, by unfold chartToScreenPoint; rw [hx, hy]⟩

/-- A chart with a single candle at `t = 100` whose column is `x = 50`; no
other time resolves, and the probed spacing is unavailable (spacing `6`). -/
def chartLastOnly : Chart :=
  ⟨fun t => if t = 100 then some 50 else Option.none, fun _ => Option.none,
    fun _ => some 20, fun _ => Option.none, Option.none, fun _ => Option.none,
    [⟨100, 1, 2, 0, 1, 5⟩], 300, .m1⟩

theorem timeToX_extrapolation_exact_witness :
    0 < 1
      ∧ timeToXWithFallback chartLastOnly (100 + (1 : ℕ) * intervalSeconds chartLastOnly)
          = some (50 + (1 : ℕ) * getBarSpacing chartLastOnly) :=
  ⟨Nat.one_pos,
    (timeToX_extrapolation_exact chartLastOnly 100 1 50 20 7
      Nat.one_pos rfl (by decide) rfl rfl).1⟩

/-- `distanceToSegment(px, py, x1, y1, x2, y2)` computes the Euclidean
distance (`Math.hypot`) from the point to its clamped projection onto the
segment; every consumer compares it against a nonnegative pixel threshold, so
the embedding returns the *squared* distance to the same closest point and
consumers compare against the squared threshold (an equivalent test that
stays in `ℚ`). -/
def distanceToSegmentSq (px py x1 y1 x2 y2 : ℚ) : ℚ :=
  let vx := x2 - x1
  let vy := y2 - y1
  let wx := px - x1
  let wy := py - y1
  let c1 := vx * wx + vy * wy
  if c1 ≤ 0 then (px - x1) ^ 2 + (py - y1) ^ 2
  else
    let c2 := vx * vx + vy * vy
    if c2 ≤ c1 then (px - x2) ^ 2 + (py - y2) ^ 2
    else
      let b := c1 / c2
      let bx := x1 + b * vx
      let qy := y1 + b * vy
      (px - bx) ^ 2 + (py - qy) ^ 2

/-- `hitTestShape(screenX, screenY)`: first drawing (in store order) whose
line body is within 6 px of the pixel, or whose rectangle bounding box
expanded by 6 px contains it.  (`d.id!` asserts the id is present —
drawings in the store are keyed by id — modelled as `d.id.getD ""`.) -/
def hitTestShape (c : Chart) (ds : List DrawingData) (x y : ℚ) : Option String :=
  ds.findSome? fun d =>
    match d.points[0]?, d.points[1]? with
    | some p1d, some p2d =>
      match chartToScreenPoint c p1d, chartToScreenPoint c p2d with
      | some p1, some p2 =>
        -- the source's `if tool === 'line' / else if tool === 'rectangle'`
        -- chain over the closed tool union, as a match
        match d.tool with
        | Tool.line =>
          if distanceToSegmentSq x y p1.1 p1.2 p2.1 p2.2 ≤ 6 ^ 2 then
            some (d.id.getD "")
          else Option.none
        | Tool.rectangle =>
          if min p1.1 p2.1 - 6 ≤ x ∧ x ≤ max p1.1 p2.1 + 6
              ∧ min p1.2 p2.2 - 6 ≤ y ∧ y ≤ max p1.2 p2.2 + 6 then
            some (d.id.getD "")
          else Option.none
        | _ => Option.none
      | _, _ => Option.none
    | _, _ => Option.none

/-- The squared point-to-segment distance from the midpoint of a segment to
that segment is zero. -/
theorem distanceToSegmentSq_midpoint (x1 y1 x2 y2 : ℚ) :
    distanceToSegmentSq ((x1 + x2) / 2) ((y1 + y2) / 2) x1 y1 x2 y2 = 0 := by
  simp only [distanceToSegmentSq]
  split_ifs with h1 h2
  · have hx : x2 - x1 = 0 := by nlinarith [sq_nonneg (x2 - x1), sq_nonneg (y2 - y1)]
    have hy : y2 - y1 = 0 := by nlinarith [sq_nonneg (x2 - x1), sq_nonneg (y2 - y1)]
    have hx' : x2 = x1 := by linarith
    have hy' : y2 = y1 := by linarith
    subst hx'; subst hy'; ring_nf
  · have hx : x2 - x1 = 0 := by nlinarith [sq_nonneg (x2 - x1), sq_nonneg (y2 - y1)]
    have hy : y2 - y1 = 0 := by nlinarith [sq_nonneg (x2 - x1), sq_nonneg (y2 - y1)]
    have hx' : x2 = x1 := by linarith
    have hy' : y2 = y1 := by linarith
    subst hx'; subst hy'; ring_nf
  · have hc2 : (x2 - x1) * (x2 - x1) + (y2 - y1) * (y2 - y1) ≠ 0 := by
      intro hz
      exact h1 (by nlinarith)
    field_simp
    ring_nf

theorem min_le_avg (a b : ℚ) : min a b ≤ (a + b) / 2 := by
  rcases le_total a b with h | h <;> simp [min_def, h] <;> linarith

theorem avg_le_max (a b : ℚ) : (a + b) / 2 ≤ max a b := by
  rcases le_total a b with h | h <;> simp [max_def, h] <;> linarith

/-- Reduction of `hitTestShape` on a single-drawing store with resolvable
projections. -/
theorem hitTestShape_single (c : Chart) (d : DrawingData) (q1 q2 : ChartPoint)
    (x1 y1 x2 y2 x y : ℚ)
    (hpts : d.points = [q1, q2])
    (hp1 : chartToScreenPoint c q1 = some (x1, y1))
    (hp2 : chartToScreenPoint c q2 = some (x2, y2)) :
    hitTestShape c [d] x y =
      match d.tool with
      | Tool.line =>
        if distanceToSegmentSq x y x1 y1 x2 y2 ≤ 6 ^ 2 then some (d.id.getD "")
        else Option.none
      | Tool.rectangle =>
        if min x1 x2 - 6 ≤ x ∧ x ≤ max x1 x2 + 6
            ∧ min y1 y2 - 6 ≤ y ∧ y ≤ max y1 y2 + 6 then some (d.id.getD "")
        else Option.none
      | _ => Option.none := by
  simp only [hitTestShape, List.findSome?_cons, List.findSome?_nil, hpts, hp1, hp2]
  cases d.tool <;> simp [hp1, hp2] <;> split_ifs <;> simp

/-- C7: for a single stored line or rectangle whose two projected points are
defined, `hitTestBody` at the shape's exact pixel midpoint returns its id;
for lines, a pixel whose point-to-segment distance is `threshold + 1 = 7`
yields `null`; for rectangles, a pixel more than the threshold beyond the
projected bounding box on any side yields `null`. -/
theorem hitTestShape_midpoint_and_margin (c : Chart) (d : DrawingData)
    (i : String) (q1 q2 : ChartPoint) (x1 y1 x2 y2 : ℚ)
    (hid : d.id = some i)
    (hpts : d.points = [q1, q2])
    (hp1 : chartToScreenPoint c q1 = some (x1, y1))
    (hp2 : chartToScreenPoint c q2 = some (x2, y2)) :
    (d.tool = Tool.line →
      hitTestShape c [d] ((x1 + x2) / 2) ((y1 + y2) / 2) = some i
        ∧ ∀ px py, distanceToSegmentSq px py x1 y1 x2 y2 = (6 + 1) ^ 2 →
            hitTestShape c [d] px py = Option.none)
    ∧ (d.tool = Tool.rectangle →
      hitTestShape c [d] ((x1 + x2) / 2) ((y1 + y2) / 2) = some i
        ∧ ∀ px py,
            px < min x1 x2 - 6 ∨ max x1 x2 + 6 < px
              ∨ py < min y1 y2 - 6 ∨ max y1 y2 + 6 < py →
            hitTestShape c [d] px py = Option.none) := by
  have hred := hitTestShape_single c d q1 q2 x1 y1 x2 y2
  constructor
  · intro htool
    constructor
    · rw [hred _ _ hpts hp1 hp2, htool]
      have : distanceToSegmentSq ((x1 + x2) / 2) ((y1 + y2) / 2) x1 y1 x2 y2 ≤ 6 ^ 2 := by
        rw [distanceToSegmentSq_midpoint]; norm_num
      simp only [if_pos this, hid, Option.getD_some]
    · intro px py hdist
      rw [hred _ _ hpts hp1 hp2, htool]
      have : ¬ distanceToSegmentSq px py x1 y1 x2 y2 ≤ 6 ^ 2 := by
        rw [hdist]; norm_num
      simp only [if_neg this]
  · intro htool
    constructor
    · rw [hred _ _ hpts hp1 hp2, htool]
      have hbox : min x1 x2 - 6 ≤ (x1 + x2) / 2 ∧ (x1 + x2) / 2 ≤ max x1 x2 + 6
          ∧ min y1 y2 - 6 ≤ (y1 + y2) / 2 ∧ (y1 + y2) / 2 ≤ max y1 y2 + 6 :=
        ⟨by linarith [min_le_avg x1 x2], by linarith [avg_le_max x1 x2],
          by linarith [min_le_avg y1 y2], by linarith [avg_le_max y1 y2]⟩
      simp only [if_pos hbox, hid, Option.getD_some]
    · intro px py hout
      rw [hred _ _ hpts hp1 hp2, htool]
      have : ¬ (min x1 x2 - 6 ≤ px ∧ px ≤ max x1 x2 + 6
          ∧ min y1 y2 - 6 ≤ py ∧ py ≤ max y1 y2 + 6) := by
        rcases hout with h | h | h | h
        · exact fun hc => absurd hc.1 (not_le.mpr h)
        · exact fun hc => absurd hc.2.1 (not_le.mpr h)
        · exact fun hc => absurd hc.2.2.1 (not_le.mpr h)
        · exact fun hc => absurd hc.2.2.2 (not_le.mpr h)
      simp only [if_neg this]

/-- Chart for the C7 witness: two times resolve to columns 0 and 10, every
price resolves to its own value as y. -/
def chartTwoCols : Chart :=
  ⟨fun t => if t = 100 then some 0 else if t = 200 then some 10 else Option.none,
    fun _ => Option.none, fun p => some p, fun _ => Option.none,
    Option.none, fun _ => Option.none, [], 300, .m1⟩

/-- A horizontal line drawing between the two resolvable columns of
`chartTwoCols`. -/
def lineDrawingEx : DrawingData :=
  ⟨some "r1", "BTC", .m1, .line, [⟨100, 2⟩, ⟨200, 2⟩], "#22aa6a", 2, Option.none⟩

theorem hitTestShape_midpoint_and_margin_witness :
    (hitTestShape chartTwoCols [lineDrawingEx] ((0 + 10) / 2) ((2 + 2) / 2) = some "r1")
    ∧ (hitTestShape chartTwoCols [lineDrawingEx] 5 9 = Option.none) := by
  have h := hitTestShape_midpoint_and_margin chartTwoCols lineDrawingEx
    "r1" ⟨100, 2⟩ ⟨200, 2⟩ 0 2 10 2 rfl rfl (by decide) (by decide)
  obtain ⟨hmid, hfar⟩ := h.1 rfl
  refine ⟨hmid, hfar 5 9 ?_⟩
  simp only [distanceToSegmentSq]
  norm_num

/-- `"start" | "end"` handle tags (`end` is a Lean keyword, hence the
guillemets). -/
inductive Handle where
  | start | «end»
deriving DecidableEq, Repr

/-- The mutable interaction fields of `ChartDrawingManager`.  `freshId`
models the environment-supplied id source (`Date.now()` + `Math.random()` in
`createDrawing`); `metaDown`/`shiftDown` mirror the tracked modifier keys. -/
structure MgrState where
  currentTool : Tool
  isDrawing : Bool
  startPoint : Option ChartPoint
  currentMousePoint : Option ChartPoint
  selectedId : Option String
  isEditing : Bool
  editingHandle : Option Handle
  drawings : List DrawingData
  metaDown : Bool
  shiftDown : Bool
  freshId : String

namespace ChartDrawingManager

/-- `ChartDrawingManager.setTool(tool)`: records the tool (the remaining
statements only restyle the canvas and invoke the tool-change callback; no
interaction field other than `currentTool` is written). -/
def setTool (s : MgrState) (tool : Tool) : MgrState :=
  { s with currentTool := tool }

end ChartDrawingManager

/-- The `redraw()` guard for the in-progress preview:
`this.isDrawing && this.startPoint && this.currentMousePoint`. -/
def drawsPreview (s : MgrState) : Bool :=
  s.isDrawing && s.startPoint.isSome && s.currentMousePoint.isSome

/-- The mutable interaction fields of the `CustomChartDrawing` variant. -/
structure CustomState where
  currentTool : Tool
  isDrawing : Bool
  startPoint : Option ChartPoint
  currentPoint : Option ChartPoint

namespace CustomChartDrawing

/-- `CustomChartDrawing.setTool(tool)`: records the tool and clears the
in-progress gesture (`isDrawing`, `startPoint`, `currentPoint`). -/
def setTool (s : CustomState) (tool : Tool) : CustomState :=
  { s with
    currentTool := tool
    isDrawing := false
    startPoint := Option.none
    currentPoint := Option.none }

end CustomChartDrawing

/-- C8 (code evaluated at the failing input): in `ChartDrawingManager`,
switching the tool away mid-Drawing leaves `isDrawing` set and the start and
transient points in place — the redraw loop keeps drawing the preview — so
the residual-state claim fails there; the `CustomChartDrawing` variant's
`setTool` does clear the gesture as the claim demands. -/
theorem setTool_mid_drawing_residual_state :
    ((ChartDrawingManager.setTool
        ⟨Tool.line, true, some ⟨60, 1⟩, some ⟨120, 2⟩, Option.none, false,
          Option.none, [], false, false, "d1"⟩ Tool.none).isDrawing = true
      ∧ (ChartDrawingManager.setTool
          ⟨Tool.line, true, some ⟨60, 1⟩, some ⟨120, 2⟩, Option.none, false,
            Option.none, [], false, false, "d1"⟩ Tool.none).startPoint = some ⟨60, 1⟩
      ∧ (ChartDrawingManager.setTool
          ⟨Tool.line, true, some ⟨60, 1⟩, some ⟨120, 2⟩, Option.none, false,
            Option.none, [], false, false, "d1"⟩ Tool.none).currentMousePoint
          = some ⟨120, 2⟩
      ∧ drawsPreview (ChartDrawingManager.setTool
          ⟨Tool.line, true, some ⟨60, 1⟩, some ⟨120, 2⟩, Option.none, false,
            Option.none, [], false, false, "d1"⟩ Tool.none) = true)
    ∧ ((CustomChartDrawing.setTool
          ⟨Tool.line, true, some ⟨60, 1⟩, some ⟨120, 2⟩⟩ Tool.none).isDrawing = false
      ∧ (CustomChartDrawing.setTool
          ⟨Tool.line, true, some ⟨60, 1⟩, some ⟨120, 2⟩⟩ Tool.none).startPoint
          = Option.none
      ∧ (CustomChartDrawing.setTool
          ⟨Tool.line, true, some ⟨60, 1⟩, some ⟨120, 2⟩⟩ Tool.none).currentPoint
          = Option.none) :=
  ⟨⟨rfl, rfl, rfl, rfl⟩, ⟨rfl, rfl, rfl⟩⟩

/-- The `while (lo <= hi)` binary-search loop of `snapPointToOHLC`,
returning the final `hi` (on an exact hit the source sets `lo = hi = mid` and
breaks, so `mid` is returned).  `(lo + hi) >> 1` on the in-range nonnegative
indices is floor division; out-of-range list reads (never reached from the
actual call) default to a zero candle. -/
def ohlcSearchHi (arr : List Candle) (t : Int) (lo hi : Int) : Int :=
  if h : lo ≤ hi then
    let mid := (lo + hi).ediv 2
    let cm := (arr[mid.toNat]?).getD ⟨0, 0, 0, 0, 0, 0⟩
    if cm.time = t then mid
    else if cm.time < t then ohlcSearchHi arr t (mid + 1) hi
    else ohlcSearchHi arr t lo (mid - 1)
  else hi
termination_by (hi + 1 - lo).toNat
decreasing_by
  all_goals simp_wf
  all_goals
    have hdiv : (lo + hi).ediv 2 = (lo + hi) / 2 := rfl
    omega

/-- `snapPointToOHLC(point)`: locate the candle nearest the point's time by
binary search, then pick whichever of its open/high/low/close is closest to
the point's price (first wins on ties, as in the source's strict `<`). -/
def snapPointToOHLC (c : Chart) (p : ChartPoint) : ChartPoint :=
  let arr := c.candles
  if arr.isEmpty then p
  else
    let hi := ohlcSearchHi arr p.time 0 ((arr.length : Int) - 1)
    let idx := max 0 (min ((arr.length : Int) - 1) (if 0 ≤ hi then hi else 0))
    let cd := (arr[idx.toNat]?).getD ⟨0, 0, 0, 0, 0, 0⟩
    let candidates := [cd.«open», cd.high, cd.low, cd.close]
    let best := ((candidates.drop 1).foldl
      (fun (acc : ℚ × ℚ) cand =>
        if |cand - p.price| < acc.2 then (cand, |cand - p.price|) else acc)
      (cd.«open», |cd.«open» - p.price|)).1
    ⟨cd.time, best⟩

/-- `hitTestHandles(screenX, screenY)`: globally closest endpoint within 8 px
(squared comparisons, see `distanceToSegmentSq`), with a line-body fallback
crediting the nearer endpoint. -/
def hitTestHandles (c : Chart) (ds : List DrawingData) (x y : ℚ) : Option (String × Handle) :=
  let best := ds.foldl
    (fun (best : Option (String × Handle × ℚ)) d =>
      match d.points[0]?, d.points[1]? with
      | some p1d, some p2d =>
        match chartToScreenPoint c p1d, chartToScreenPoint c p2d with
        | some p1, some p2 =>
          let dx1 := p1.1 - x
          let dy1 := p1.2 - y
          let dx2 := p2.1 - x
          let dy2 := p2.2 - y
          let d1 := dx1 * dx1 + dy1 * dy1
          let d2 := dx2 * dx2 + dy2 * dy2
          let b1 :=
            if d1 ≤ 8 * 8 then
              match best with
              | Option.none => some (d.id.getD "", Handle.start, d1)
              | some bb =>
                if d1 < bb.2.2 then some (d.id.getD "", Handle.start, d1) else best
            else best
          let b2 :=
            if d2 ≤ 8 * 8 then
              match b1 with
              | Option.none => some (d.id.getD "", Handle.«end», d2)
              | some bb =>
                if d2 < bb.2.2 then some (d.id.getD "", Handle.«end», d2) else b1
            else b1
          match d.tool with
          | Tool.line =>
            if distanceToSegmentSq x y p1.1 p1.2 p2.1 p2.2 ≤ 8 ^ 2 then
              let choose := if d1 ≤ d2 then Handle.start else Handle.«end»
              let dist := min d1 d2
              match b2 with
              | Option.none => some (d.id.getD "", choose, dist)
              | some bb =>
                if dist < bb.2.2 then some (d.id.getD "", choose, dist) else b2
            else b2
          | _ => b2
        | _, _ => best
      | _, _ => best)
    Option.none
  best.map fun bb => (bb.1, bb.2.1)

/-- `createDrawing(p1, p2)`: `null` when no tool is active, else a fresh
annotation carrying the two points and `basePoints`/`baseInterval` for the
active interval. -/
def createDrawing (c : Chart) (tool : Tool) (freshId : String)
    (p1 p2 : ChartPoint) : Option DrawingData :=
  if tool = Tool.none then Option.none
  else some
    { id := some freshId
      symbol := ""
      interval := c.interval
      tool := tool
      points := [⟨p1.time, p1.price⟩, ⟨p2.time, p2.price⟩]
      color := "#22aa6a"
      lineWidth := 2
      properties := some ⟨some [⟨p1.time, p1.price⟩, ⟨p2.time, p2.price⟩], some c.interval⟩ }

/-- `onChartClick(param)` as a state transition; the second component is the
drawing handed to `onDrawingComplete` (if any).  Popup/DOM side effects are
not state.  Time deltas compare integer times, matching the rounded times
`screenToChartPoint` produces. -/
def onChartClick (c : Chart) (s : MgrState) (x y : ℚ) : MgrState × Option DrawingData :=
  if s.currentTool = Tool.none then
    -- selection / editing branch
    match hitTestHandles c s.drawings x y with
    | some hit =>
      if s.selectedId ≠ some hit.1 then
        ({ s with
            selectedId := some hit.1
            isEditing := false
            editingHandle := Option.none }, Option.none)
      else if s.isEditing ∧ s.editingHandle = some hit.2 then
        ({ s with
            isEditing := false
            editingHandle := Option.none }, Option.none)
      else
        ({ s with
            isEditing := true
            editingHandle := some hit.2 }, Option.none)
    | Option.none =>
      match hitTestShape c s.drawings x y with
      | some bodyId =>
        ({ s with
            selectedId := some bodyId
            isEditing := false
            editingHandle := Option.none }, Option.none)
      | Option.none =>
        ({ s with
            selectedId := Option.none
            isEditing := false
            editingHandle := Option.none }, Option.none)
  else
    match screenToChartPoint c x y with
    | Option.none => (s, Option.none)
    | some cp0 =>
      let cp := if s.metaDown then snapPointToOHLC c cp0 else cp0
      if ¬ s.isDrawing then
        ({ s with
            isDrawing := true
            startPoint := some cp
            currentMousePoint := some cp }, Option.none)
      else
        match s.startPoint with
        | some sp =>
          let endP : ChartPoint :=
            if s.currentTool = Tool.line ∧ s.shiftDown then ⟨cp.time, sp.price⟩ else cp
          if |endP.time - sp.time| < 1 ∧ |endP.price - sp.price| < 1 / 100000 then
            ({ s with
                isDrawing := false
                startPoint := Option.none
                currentMousePoint := Option.none }, Option.none)
          else
            (ChartDrawingManager.setTool
              { s with
                isDrawing := false
                startPoint := Option.none
                currentMousePoint := Option.none } Tool.none,
              createDrawing c s.currentTool s.freshId sp endP)
        | Option.none => (s, Option.none)

/-- First click with an armed tool and meta up: arms the gesture with the
resolved point. -/
theorem onChartClick_first (c : Chart) (s : MgrState) (x y : ℚ) (t1 : Int) (p1 : ℚ)
    (htool : ¬ s.currentTool = Tool.none)
    (hnd : s.isDrawing = false)
    (hmeta : s.metaDown = false)
    (hc : screenToChartPoint c x y = some ⟨t1, p1⟩) :
    onChartClick c s x y
      = ({ s with
            isDrawing := true
            startPoint := some ⟨t1, p1⟩
            currentMousePoint := some ⟨t1, p1⟩ }, Option.none) := by
  unfold onChartClick
  rw [if_neg htool]
  simp only [hc, hmeta, hnd]
  simp

/-- Second click with an armed tool and modifiers up: either the degenerate
cancel or the completed drawing. -/
theorem onChartClick_second (c : Chart) (s : MgrState) (x y : ℚ)
    (t1 t2 : Int) (p1 p2 : ℚ)
    (htool : ¬ s.currentTool = Tool.none)
    (hd : s.isDrawing = true)
    (hsp : s.startPoint = some ⟨t1, p1⟩)
    (hmeta : s.metaDown = false)
    (hshift : s.shiftDown = false)
    (hc : screenToChartPoint c x y = some ⟨t2, p2⟩) :
    onChartClick c s x y
      = if |t2 - t1| < 1 ∧ |p2 - p1| < 1 / 100000 then
          ({ s with
              isDrawing := false
              startPoint := Option.none
              currentMousePoint := Option.none }, Option.none)
        else
          ({ s with
              currentTool := Tool.none
              isDrawing := false
              startPoint := Option.none
              currentMousePoint := Option.none },
            some ⟨some s.freshId, "", c.interval, s.currentTool,
              [⟨t1, p1⟩, ⟨t2, p2⟩], "#22aa6a", 2,
              some ⟨some [⟨t1, p1⟩, ⟨t2, p2⟩], some c.interval⟩⟩) := by
  unfold onChartClick
  rw [if_neg htool]
  simp only [hc, hmeta, hd, hsp, hshift]
  simp [createDrawing, if_neg htool, ChartDrawingManager.setTool]

/-- C6: with a drawing tool armed and no modifiers, two clicks at the same
semantic point produce no annotation and return the machine to Idle; two
clicks at semantic points with distinct times produce exactly one annotation
whose points are the two click points. -/
theorem two_click_creation (c : Chart) (s : MgrState) (x1 y1 x1' y1' x2 y2 : ℚ)
    (t1 t2 : Int) (p1 p2 : ℚ)
    (htool : ¬ s.currentTool = Tool.none)
    (hnd : s.isDrawing = false)
    (hmeta : s.metaDown = false)
    (hshift : s.shiftDown = false)
    (hc1 : screenToChartPoint c x1 y1 = some ⟨t1, p1⟩)
    (hc1' : screenToChartPoint c x1' y1' = some ⟨t1, p1⟩)
    (hc2 : screenToChartPoint c x2 y2 = some ⟨t2, p2⟩) :
    ((onChartClick c s x1 y1).2 = Option.none
      ∧ (onChartClick c (onChartClick c s x1 y1).1 x1' y1').2 = Option.none
      ∧ (onChartClick c (onChartClick c s x1 y1).1 x1' y1').1.isDrawing = false
      ∧ (onChartClick c (onChartClick c s x1 y1).1 x1' y1').1.startPoint = Option.none
      ∧ (onChartClick c (onChartClick c s x1 y1).1 x1' y1').1.currentMousePoint
        = Option.none)
    ∧ (t2 ≠ t1 →
      ∃ d : DrawingData,
        (onChartClick c (onChartClick c s x1 y1).1 x2 y2).2 = some d
          ∧ d.points = [⟨t1, p1⟩, ⟨t2, p2⟩]
          ∧ (onChartClick c (onChartClick c s x1 y1).1 x2 y2).1.isDrawing = false
          ∧ (onChartClick c (onChartClick c s x1 y1).1 x2 y2).1.startPoint
            = Option.none) := by
  have h1 := onChartClick_first c s x1 y1 t1 p1 htool hnd hmeta hc1
  have h2A := onChartClick_second c
    { s with
      isDrawing := true
      startPoint := some ⟨t1, p1⟩
      currentMousePoint := some ⟨t1, p1⟩ } x1' y1' t1 t1 p1 p1
    htool rfl rfl hmeta hshift hc1'
  have h2B := onChartClick_second c
    { s with
      isDrawing := true
      startPoint := some ⟨t1, p1⟩
      currentMousePoint := some ⟨t1, p1⟩ } x2 y2 t1 t2 p1 p2
    htool rfl rfl hmeta hshift hc2
  rw [if_pos (by norm_num : |t1 - t1| < 1 ∧ |p1 - p1| < (1 : ℚ) / 100000)] at h2A
  constructor
  · rw [h1]
    exact ⟨rfl, by rw [h2A], by rw [h2A], by rw [h2A], by rw [h2A]⟩
  · intro hne
    have habs : ¬ (|t2 - t1| < 1 ∧ |p2 - p1| < (1 : ℚ) / 100000) := by
      intro hcon
      exact absurd hcon.1 (not_lt.mpr (Int.one_le_abs (sub_ne_zero.mpr hne)))
    rw [if_neg habs] at h2B
    rw [h1]
    exact ⟨_, by rw [h2B], rfl, by rw [h2B], by rw [h2B]⟩

/-- Chart for the C6 witness: every pixel column resolves to its own value as
a time, every pixel row to its own value as a price. -/
def chartIdMap : Chart :=
  ⟨fun _ => Option.none, fun q => some q, fun _ => Option.none, fun q => some q,
    Option.none, fun _ => Option.none, [], 300, .m1⟩

/-- Idle manager state with the line tool armed and no modifiers. -/
def clickStateEx : MgrState :=
  ⟨Tool.line, false, Option.none, Option.none, Option.none, false, Option.none,
    [], false, false, "d1"⟩

theorem two_click_creation_witness :
    ∃ d : DrawingData,
      (onChartClick chartIdMap (onChartClick chartIdMap clickStateEx 10 5).1 20 7).2
          = some d
        ∧ d.points = [⟨10, 5⟩, ⟨20, 7⟩]
        ∧ (onChartClick chartIdMap
            (onChartClick chartIdMap clickStateEx 10 5).1 20 7).1.isDrawing = false
        ∧ (onChartClick chartIdMap
            (onChartClick chartIdMap clickStateEx 10 5).1 20 7).1.startPoint
          = Option.none := by
  have hc1 : screenToChartPoint chartIdMap 10 5 = some ⟨10, 5⟩ := by
    simp [screenToChartPoint, chartIdMap, roundJS, floorJS_eq_floor]
    norm_num
  have hc2 : screenToChartPoint chartIdMap 20 7 = some ⟨20, 7⟩ := by
    simp [screenToChartPoint, chartIdMap, roundJS, floorJS_eq_floor]
    norm_num
  exact (two_click_creation chartIdMap clickStateEx 10 5 10 5 20 7 10 20 5 7
    (by decide) rfl rfl rfl hc1 hc1 hc2).2 (by decide)

/-- A raw persisted point as the service layer delivers it
(`{ x?, y?, time?, price? }`; the unused pixel fields are omitted). -/
structure RawPoint where
  time : Option Int
  price : Option ℚ
deriving DecidableEq, Repr

/-- `normalizePoints(points)` from `CustomChartDrawing`: default missing
coordinates to 0 (`p.time || 0`), then drop any point whose time or price is
falsy — which conflates the representable value 0 with absence. -/
def normalizePoints (points : List RawPoint) : List ChartPoint :=
  (points.map fun p => ChartPoint.mk (p.time.getD 0) (p.price.getD 0)).filter
    fun p => p.time != 0 && p.price != 0

/-- The guard-and-project prefix of `drawShape` in the earlier
`ChartDrawingManager` variant: with fewer than two points, any falsy
(`0` or missing) coordinate, or an unresolvable projection the shape is
skipped (`none`); otherwise the two projected pixel points the drawing code
strokes. -/
def drawShape (c : Chart) (points : List RawPoint) : Option ((ℚ × ℚ) × (ℚ × ℚ)) :=
  match points[0]?, points[1]? with
  | some p1d, some p2d =>
    if p1d.time.getD 0 = 0 ∨ p1d.price.getD 0 = 0
        ∨ p2d.time.getD 0 = 0 ∨ p2d.price.getD 0 = 0 then Option.none
    else
      match chartToScreenPoint c ⟨p1d.time.getD 0, p1d.price.getD 0⟩,
            chartToScreenPoint c ⟨p2d.time.getD 0, p2d.price.getD 0⟩ with
      | some s1, some s2 => some (s1, s2)
      | _, _ => Option.none
  | _, _ => Option.none

/-- C10: a point with time 0 or price 0 (or missing) is treated as absent —
`normalizePoints` filters it out (leaving fewer than the two points the
renderer requires), and `drawShape` skips the whole shape — even though
price 0 is a representable value. -/
theorem zero_coordinate_treated_absent :
    (∀ (pts : List RawPoint) (q : ChartPoint),
        q ∈ normalizePoints pts → q.time ≠ 0 ∧ q.price ≠ 0)
    ∧ (∀ p1 p2 : RawPoint,
        p1.time.getD 0 = 0 ∨ p1.price.getD 0 = 0
            ∨ p2.time.getD 0 = 0 ∨ p2.price.getD 0 = 0 →
        (normalizePoints [p1, p2]).length < 2)
    ∧ (∀ (c : Chart) (p1 p2 : RawPoint),
        p1.time.getD 0 = 0 ∨ p1.price.getD 0 = 0
            ∨ p2.time.getD 0 = 0 ∨ p2.price.getD 0 = 0 →
        drawShape c [p1, p2] = Option.none) := by
  refine ⟨?_, ?_, ?_⟩
  · intro pts q hq
    have hf := List.of_mem_filter hq
    simpa using hf
  · intro p1 p2 h
    have hlen : ∀ q : ChartPoint,
        (List.filter (fun p => p.time != 0 && p.price != 0) [q]).length ≤ 1 :=
      fun q => List.length_filter_le _ _
    rcases h with h | h | h | h
    · simp only [normalizePoints, List.map_cons, List.map_nil]
      rw [List.filter_cons, if_neg (by simp [h])]
      exact lt_of_le_of_lt (hlen _) (by norm_num)
    · simp only [normalizePoints, List.map_cons, List.map_nil]
      rw [List.filter_cons, if_neg (by simp [h])]
      exact lt_of_le_of_lt (hlen _) (by norm_num)
    · simp only [normalizePoints, List.map_cons, List.map_nil]
      rw [List.filter_cons]
      split_ifs
      · rw [List.filter_cons, if_neg (by simp [h])]
        simp
      · rw [List.filter_cons, if_neg (by simp [h])]
        simp
    · simp only [normalizePoints, List.map_cons, List.map_nil]
      rw [List.filter_cons]
      split_ifs
      · rw [List.filter_cons, if_neg (by simp [h])]
        simp
      · rw [List.filter_cons, if_neg (by simp [h])]
        simp
  · intro c p1 p2 h
    simp only [drawShape, List.getElem?_cons_zero, List.getElem?_cons_succ]
    rw [if_pos h]

/-- A chart that resolves nothing (irrelevant: the zero-price guard fires
before any projection). -/
def plainChart : Chart :=
  ⟨fun _ => Option.none, fun _ => Option.none, fun _ => Option.none,
    fun _ => Option.none, Option.none, fun _ => Option.none, [], 0, .m1⟩

theorem zero_coordinate_treated_absent_witness :
    ((⟨some 100, some 0⟩ : RawPoint).time.getD 0 = 0
        ∨ (⟨some 100, some 0⟩ : RawPoint).price.getD 0 = 0
        ∨ (⟨some 200, some 5⟩ : RawPoint).time.getD 0 = 0
        ∨ (⟨some 200, some 5⟩ : RawPoint).price.getD 0 = 0)
      ∧ (normalizePoints [⟨some 100, some 0⟩, ⟨some 200, some 5⟩]).length < 2
      ∧ drawShape plainChart [⟨some 100, some 0⟩, ⟨some 200, some 5⟩] = Option.none :=
  ⟨Or.inr (Or.inl rfl),
    zero_coordinate_treated_absent.2.1 ⟨some 100, some 0⟩ ⟨some 200, some 5⟩
      (Or.inr (Or.inl rfl)),
    zero_coordinate_treated_absent.2.2 plainChart ⟨some 100, some 0⟩ ⟨some 200, some 5⟩
      (Or.inr (Or.inl rfl))⟩

end PaperTrade
